import Mathlib

/-!
Verification development for the gofs core: the push-client synchronizer
(sync/push_client_sync.go, given here as src/unnamed/part_000), the
remote-client monitor (src/monitor/remote_client_monitor.go) and the
file-list endpoint (src/server/handler/file_api_handler.go).

Each section embeds the relevant Go functions as executable Lean
definitions. External collaborators (DiskSync, the ignore matcher, the
HTTP and hashing utilities, url.Values encoding) are modelled as
parameters supplied through environment records, so that every theorem is
about the control flow and data flow of the repository code itself.
-/

namespace Gofs

/-- The action vocabulary shared by both sides (package action). -/
inductive Action where
  | create
  | write
  | remove
  | rename
  | chmod
  | symlink
  deriving DecidableEq, Repr

/-- contract.Success response code. -/
def success : Int := 0

/-! ## Monitor-side message processor

Embedding of remoteClientMonitor.processingMessage
(src/monitor/remote_client_monitor.go, lines 234-298). A queue element is
an Option MsgData: none models a list element whose Value is nil, and
MsgData.malformed models a payload on which util.Unmarshal fails. The
calls the processor makes to the local syncer, the write tracker and the
event log are recorded in order as Effect values. -/

/-- The fields of sync.Message that processingMessage reads. -/
structure SyncMessage where
  code : Int
  message : String
  action : Action
  path : String
  isDir : Int
  size : Int
  hash : String
  cTime : Int
  aTime : Int
  mTime : Int
  linkTo : String
  baseUrl : String
  deriving DecidableEq, Repr

/-- Result of unmarshalling a queued contract.Message payload. -/
inductive MsgData where
  | malformed
  | ok (msg : SyncMessage)
  deriving DecidableEq, Repr

/-- A call the processor makes while handling one message. -/
inductive Effect where
  | create (url : String)
  | remove (url : String)
  | rename (url : String)
  | chmod (url : String)
  | symlink (target url : String)
  | addWrite (url : String)
  | removeWrite (url : String)
  | eventLog (url : String) (act : Action)
  deriving DecidableEq, Repr

/-- True exactly for the syncer calls that touch the filesystem. -/
def Effect.isSyncerCall : Effect → Bool
  | .create _ => true
  | .remove _ => true
  | .rename _ => true
  | .chmod _ => true
  | .symlink _ _ => true
  | .addWrite _ => false
  | .removeWrite _ => false
  | .eventLog _ _ => false

/-- True when the list contains a syncer.Symlink call. -/
def hasSymlinkCall (l : List Effect) : Bool :=
  l.any fun e =>
    match e with
    | .symlink _ _ => true
    | _ => false

/-- External collaborators of the processor: ignore.MatchPath on the
message path, and the url.Values encoding of the six FsDir..FsMtime
fields (an opaque function of the message). -/
structure ProcEnv where
  ignoreMatch : String → Bool
  encodeQuery : SyncMessage → String

/-- Character-level body of strings.ReplaceAll(path, single-char
pattern, escape): every question mark becomes the three escape
characters. -/
def escapeQmChars : List Char → List Char
  | [] => []
  | c :: cs => (if c = '?' then ['%', '3', 'F'] else [c]) ++ escapeQmChars cs

/-- strings.ReplaceAll(s, the question mark, its percent escape). -/
def escapeQm (s : String) : String :=
  String.mk (escapeQmChars s.data)

/-- URL built by processingMessage: BaseUrl, then the path with every
question mark replaced by the percent escape, then one question mark and
the encoded values. -/
def buildUrl (env : ProcEnv) (msg : SyncMessage) : String :=
  msg.baseUrl ++ escapeQm msg.path ++ "?" ++ env.encodeQuery msg

/-- The action switch of processingMessage. Note that the switch in the
source has cases for Create, Write, Remove, Rename and Chmod only: a
Symlink action falls through with no syncer call at all. -/
def dispatchAction (url : String) (a : Action) : List Effect :=
  match a with
  | .create => [Effect.create url]
  | .write => [Effect.create url, Effect.addWrite url]
  | .remove => [Effect.removeWrite url, Effect.remove url]
  | .rename => [Effect.rename url]
  | .chmod => [Effect.chmod url]
  | .symlink => []

/-- Handling of one dequeued non-nil message body: unmarshal failure and
a non-Success code are only logged; an ignore match does nothing; in the
remaining case the switch runs and the event log entry is written. The
error returned by a syncer call is only logged and changes no effect. -/
def processBody (env : ProcEnv) (d : MsgData) : List Effect :=
  match d with
  | .malformed => []
  | .ok msg =>
    if msg.code ≠ success then []
    else if env.ignoreMatch msg.path then []
    else
      let url := buildUrl env msg
      dispatchAction url msg.action ++ [Effect.eventLog url msg.action]

/-- State of the monitor as seen by the processor: the closed flag set by
Close(), the message queue (front at the head), and the effects applied
so far. -/
structure MonitorState where
  closed : Bool
  queue : List (Option MsgData)
  effects : List Effect
  deriving DecidableEq, Repr

/-- One iteration of the processingMessage loop. An empty queue only
sleeps; a front element with nil value is removed; a front element with a
message body is handled by processBody and then removed. The loop never
reads the closed flag. -/
def processStep (env : ProcEnv) (s : MonitorState) : MonitorState :=
  match s.queue with
  | [] => s
  | none :: rest => { s with queue := rest }
  | some d :: rest => { s with queue := rest, effects := s.effects ++ processBody env d }

/-! ## Monitor-side receive dispatch

Embedding of the ApiType switch of remoteClientMonitor.receive
(src/monitor/remote_client_monitor.go, lines 206-228). Both channels are
created with buffer capacity 100 in NewRemoteClientMonitor. The sends on
authChan and infoChan are plain Go buffered-channel sends: they succeed
immediately when the buffer holds fewer elements than its capacity, and
otherwise the sending goroutine blocks. -/

/-- contract ApiType values the switch distinguishes. -/
inductive ApiType where
  | auth
  | info
  | syncMessage
  | unknown
  deriving DecidableEq, Repr

/-- contract.Status as read from a frame. -/
structure Status where
  apiType : ApiType
  code : Int
  message : String
  deriving DecidableEq, Repr

/-- contract.Message: the raw frame bytes. -/
structure RawMessage where
  data : String
  deriving DecidableEq, Repr

/-- Buffer capacity of authChan and infoChan (NewRemoteClientMonitor). -/
def chanCap : Nat := 100

/-- Pending contents of the two channels and the message list. -/
structure RecvState where
  authChan : List Status
  infoChan : List RawMessage
  messages : List RawMessage
  deriving DecidableEq, Repr

/-- Outcome of dispatching one frame: either the new state, or the
receive loop is blocked on a full channel send. -/
inductive DispatchResult where
  | ok (s : RecvState)
  | blockedOnAuth
  | blockedOnInfo
  deriving DecidableEq, Repr

/-- The ApiType switch of the receive loop. Auth and Info perform plain
buffered sends (block when the buffer is full); SyncMessage appends to
the unbounded message list; an unknown type is logged and discarded. -/
def dispatchFrame (st : Status) (raw : RawMessage) (s : RecvState) : DispatchResult :=
  match st.apiType with
  | .auth =>
    if s.authChan.length < chanCap then
      DispatchResult.ok { s with authChan := s.authChan ++ [st] }
    else DispatchResult.blockedOnAuth
  | .info =>
    if s.infoChan.length < chanCap then
      DispatchResult.ok { s with infoChan := s.infoChan ++ [raw] }
    else DispatchResult.blockedOnInfo
  | .syncMessage => DispatchResult.ok { s with messages := s.messages ++ [raw] }
  | .unknown => DispatchResult.ok s

/-! ## Push-side operations Create / Write / Remove / Rename

Embedding of pushClientSync.Create, Write, Remove and Rename
(src/unnamed/part_000, lines 187-229). Each operation first mirrors the
action to the local destination through the embedded diskSync when
dest.LocalSyncDisabled() is false, aborting with the disk error if any,
and then hands the event to pushClientSync.send. The source has Rename
call diskSync.Remove, not diskSync.Rename. The calls are recorded in
order as PushEffect values; the results of the collaborators come from a
PushEnv. -/

/-- Results of the external collaborators of the four operations: the
diskSync calls, pcs.IsDir, pcs.send and pcs.SyncOnce. An error is
modelled as some message. -/
structure PushEnv where
  localSyncDisabled : Bool
  diskCreate : String → Option String
  diskWrite : String → Option String
  diskRemove : String → Option String
  isDir : String → Except String Bool
  sendRes : Action → String → Option String
  syncOnceRes : String → Option String

/-- A call one of the four operations makes, in order. -/
inductive PushEffect where
  | diskCreate (p : String)
  | diskWrite (p : String)
  | diskRemove (p : String)
  | diskRename (p : String)
  | sendAct (a : Action) (p : String)
  | syncOnce (p : String)
  deriving DecidableEq, Repr

/-- pushClientSync.Create: local diskSync.Create when enabled (its error
aborts), then send(CreateAction, path). -/
def pcsCreate (env : PushEnv) (p : String) : Option String × List PushEffect :=
  if !env.localSyncDisabled then
    match env.diskCreate p with
    | some e => (some e, [PushEffect.diskCreate p])
    | none =>
      (env.sendRes Action.create p, [PushEffect.diskCreate p, PushEffect.sendAct Action.create p])
  else (env.sendRes Action.create p, [PushEffect.sendAct Action.create p])

/-- Tail of pushClientSync.Write after the local mirror: IsDir (its error
aborts), then SyncOnce for a directory or send(WriteAction, path) for a
file. -/
def pcsWriteTail (env : PushEnv) (p : String) (pre : List PushEffect) :
    Option String × List PushEffect :=
  match env.isDir p with
  | .error e => (some e, pre)
  | .ok true => (env.syncOnceRes p, pre ++ [PushEffect.syncOnce p])
  | .ok false => (env.sendRes Action.write p, pre ++ [PushEffect.sendAct Action.write p])

/-- pushClientSync.Write: local diskSync.Write when enabled (its error
aborts), then the IsDir branch. -/
def pcsWrite (env : PushEnv) (p : String) : Option String × List PushEffect :=
  if !env.localSyncDisabled then
    match env.diskWrite p with
    | some e => (some e, [PushEffect.diskWrite p])
    | none => pcsWriteTail env p [PushEffect.diskWrite p]
  else pcsWriteTail env p []

/-- pushClientSync.Remove: local diskSync.Remove when enabled (its error
aborts), then send(RemoveAction, path). -/
def pcsRemove (env : PushEnv) (p : String) : Option String × List PushEffect :=
  if !env.localSyncDisabled then
    match env.diskRemove p with
    | some e => (some e, [PushEffect.diskRemove p])
    | none =>
      (env.sendRes Action.remove p, [PushEffect.diskRemove p, PushEffect.sendAct Action.remove p])
  else (env.sendRes Action.remove p, [PushEffect.sendAct Action.remove p])

/-- pushClientSync.Rename: the local mirror call in the source is
diskSync.Remove (src/unnamed/part_000 line 224), then
send(RenameAction, path). -/
def pcsRename (env : PushEnv) (p : String) : Option String × List PushEffect :=
  if !env.localSyncDisabled then
    match env.diskRemove p with
    | some e => (some e, [PushEffect.diskRemove p])
    | none =>
      (env.sendRes Action.rename p, [PushEffect.diskRemove p, PushEffect.sendAct Action.rename p])
  else (env.sendRes Action.rename p, [PushEffect.sendAct Action.rename p])

/-! ## Push-side handshake info phase

Embedding of pushClientSync.info and the tail of pushClientSync.start
(src/unnamed/part_000, lines 81-96 and 126-149). The select on infoChan
either receives a message or times out after 3 minutes; a received
message is unmarshalled into FileServerInfo and checked. start closes
the control client only when info returns no error. -/

/-- What arrives on infoChan: a payload that fails to unmarshal (with
the unmarshal error), or the FileServerInfo fields. -/
inductive InfoMsg where
  | malformed (e : String)
  | ok (serverAddr pushAddr sourcePath : String) (code : Int) (message : String)
  deriving DecidableEq, Repr

/-- pushClientSync.info given the select outcome: none models the
3-minute timeout firing first. On success the stored push address is
ServerAddr concatenated with PushAddr. -/
def infoResult : Option InfoMsg → Except String String
  | none => Except.error "info timeout for 3m0s"
  | some (.malformed e) => Except.error e
  | some (.ok sa pa _ c m) =>
    if c ≠ success then Except.error ("receive info command response error => " ++ m)
    else Except.ok (sa ++ pa)

/-- Result of the info phase of start: info result, and whether
client.Close() was invoked by start. -/
structure StartOutcome where
  result : Except String String
  closeCalled : Bool
  deriving Repr

/-- Tail of pushClientSync.start: err = info(); if err == nil then
client.Close(). The client is closed only on success. -/
def startInfoPhase (recv : Option InfoMsg) : StartOutcome :=
  match infoResult recv with
  | .ok addr => { result := Except.ok addr, closeCalled := true }
  | .error e => { result := Except.error e, closeCalled := false }

/-! ## Push-side HTTP POST with auto-login

Embedding of pushClientSync.httpPostWithAuth (src/unnamed/part_000,
lines 366-405). The outcomes of the first POST, url.Parse, SignIn and
the retried POST are drawn from an AuthEnv; the embedding returns the
function result together with how many SignIn calls and POST attempts
were made and whether the session cookies were replaced. -/

/-- An HTTP response: status code and body. -/
structure HttpResp where
  statusCode : Nat
  body : String
  deriving DecidableEq, Repr

/-- Results of the collaborators of httpPostWithAuth. -/
structure AuthEnv where
  rawURL : String
  hasUser : Bool
  parseUrlRes : Except String Unit
  firstPost : Except String HttpResp
  signInRes : Except String (List String)
  retryPost : Except String HttpResp

/-- Observable outcome of one httpPostWithAuth call. -/
structure AuthOutcome where
  result : Except String HttpResp
  signInCalls : Nat
  postCalls : Nat
  cookiesReplaced : Bool
  deriving Repr

/-- pushClientSync.httpPostWithAuth: a 401 on the first POST with a
configured user triggers url.Parse, SignIn, and, when SignIn returns a
non-empty cookie list, a cookie replacement and exactly one retried POST
whose response is returned with no status inspection; an empty cookie
list yields the unauthorized error. A 404 on the first POST (outside
that 401 branch) yields the unsupported error. Anything else returns
the first response. -/
def httpPostWithAuth (env : AuthEnv) : AuthOutcome :=
  match env.firstPost with
  | .error e =>
    { result := Except.error e, signInCalls := 0, postCalls := 1, cookiesReplaced := false }
  | .ok resp =>
    if resp.statusCode = 401 ∧ env.hasUser then
      match env.parseUrlRes with
      | .error e =>
        { result := Except.error e, signInCalls := 0, postCalls := 1, cookiesReplaced := false }
      | .ok _ =>
        match env.signInRes with
        | .error e =>
          { result := Except.error e, signInCalls := 1, postCalls := 1, cookiesReplaced := false }
        | .ok cookies =>
          if cookies.length > 0 then
            { result := env.retryPost, signInCalls := 1, postCalls := 2, cookiesReplaced := true }
          else
            { result := Except.error "file server is unauthorized", signInCalls := 1,
              postCalls := 1, cookiesReplaced := false }
    else if resp.statusCode = 404 then
      { result := Except.error ("the push server is unsupported => " ++ env.rawURL),
        signInCalls := 0, postCalls := 1, cookiesReplaced := false }
    else
      { result := Except.ok resp, signInCalls := 0, postCalls := 1, cookiesReplaced := false }

/-! ## Push-side send

Embedding of pushClientSync.send (src/unnamed/part_000, lines 272-364)
up to the point where the marshalled PushData is handed to
httpPostWithAuth. The stat through pcs.IsDir, os.Open, file.Stat,
util.MD5FromFile, fs.GetFileTime and filepath.Rel are collaborators
drawn from a SendEnv. The Bool paired with the result records whether
pcs.IsDir was invoked for this call. -/

/-- The contract tri-value for IsDir as placed into the pushed
FileInfo. -/
inductive DirValue where
  | unknown
  | dirV
  | notDirV
  deriving DecidableEq, Repr

/-- contract.FileInfo as built by send. -/
structure PushFileInfo where
  path : String
  isDir : DirValue
  size : Int
  hash : String
  cTime : Int
  aTime : Int
  mTime : Int
  deriving DecidableEq, Repr

/-- push.PushData: the action and the file info placed into the form. -/
structure PushData where
  action : Action
  fileInfo : PushFileInfo
  deriving DecidableEq, Repr

/-- Results of the collaborators of send. -/
structure SendEnv where
  isDir : String → Except String Bool
  openFile : String → Option String
  statSize : String → Except String Int
  md5FromFile : String → Except String String
  fileTime : String → Except String (Int × Int × Int)
  relPath : String → Except String String
  nowUnix : Int

/-- Outcome of send up to the POST: an error return, the early nil
return for a Write on a directory (no POST is made), or the PushData
with which the POST is attempted. -/
inductive SendResult where
  | fail (e : String)
  | dirWriteSkip
  | pushed (pd : PushData)
  deriving DecidableEq, Repr

/-- Tail of send after the size and hash phase: file times for Write and
Create (time.Now() Unix seconds otherwise), the relative slash path, and
the PushData record handed to the POST. -/
def sendTail (env : SendEnv) (act : Action) (p : String) (isDir : Bool) (size : Int)
    (hash : String) : SendResult :=
  let times :=
    if act = Action.write ∨ act = Action.create then env.fileTime p
    else Except.ok (env.nowUnix, env.nowUnix, env.nowUnix)
  match times with
  | .error e => SendResult.fail e
  | .ok (c, a, m) =>
    match env.relPath p with
    | .error e => SendResult.fail e
    | .ok rel =>
      SendResult.pushed
        { action := act,
          fileInfo :=
            { path := rel, isDir := if isDir then DirValue.dirV else DirValue.notDirV,
              size := size, hash := hash, cTime := c, aTime := a, mTime := m } }

/-- Size and hash phase of send: for a Write on a file, open and stat
the path (errors abort) and hash the body with MD5 exactly when the size
is positive; a Write on a directory returns nil before any POST; every
other action keeps size 0 and the empty hash. -/
def sendBody (env : SendEnv) (act : Action) (p : String) (isDir : Bool) : SendResult :=
  if !isDir ∧ act = Action.write then
    match env.openFile p with
    | some e => SendResult.fail e
    | none =>
      match env.statSize p with
      | .error e => SendResult.fail e
      | .ok size =>
        if size > 0 then
          match env.md5FromFile p with
          | .error e => SendResult.fail e
          | .ok h => sendTail env act p isDir size h
        else sendTail env act p isDir size ""
  else if isDir ∧ act = Action.write then SendResult.dirWriteSkip
  else sendTail env act p isDir 0 ""

/-- pushClientSync.send: the path is stat-checked through pcs.IsDir
unless the action is Remove or Rename (its error aborts), then the size
and hash phase runs. The Bool records whether the stat was invoked. -/
def send (env : SendEnv) (act : Action) (p : String) : SendResult × Bool :=
  if act ≠ Action.remove ∧ act ≠ Action.rename then
    match env.isDir p with
    | .error e => (SendResult.fail e, true)
    | .ok isDir => (sendBody env act p isDir, true)
  else (sendBody env act p false, false)

/-! ## SyncOnce walker

Embedding of pushClientSync.SyncOnce (src/unnamed/part_000, lines
240-262). filepath.WalkDir visits the rooted entry and then, for a
directory, every child; the callback returns nil when
ignore.MatchPath(currentPath, ...) holds, which in WalkDir semantics
skips nothing beyond the current entry (only the value iofs.SkipDir
would prune the subtree, and the callback never returns it). For a
directory entry the callback calls pcs.Create; for a file it calls
pcs.Create and, when that succeeds, pcs.Write. The embedding records the
emitted (action, path) pairs in visit order for the error-free run. -/

mutual
/-- A directory entry of the walked tree. -/
inductive FsTree where
  | file (name : String)
  | dir (name : String) (children : FsForest)
/-- A list of sibling entries, in walk order. -/
inductive FsForest where
  | nil
  | cons (t : FsTree) (ts : FsForest)
end

/-- Name of the entry. -/
def FsTree.name : FsTree → String
  | .file n => n
  | .dir n _ => n

mutual
/-- Events emitted by the WalkDir callback for the entry at path p: an
ignore match emits nothing for p itself but the walk still descends into
a matched directory; otherwise a directory emits Create and a file emits
Create then Write. -/
def walkTree (ign : String → Bool) (p : String) : FsTree → List (Action × String)
  | .file _ => if ign p then [] else [(Action.create, p), (Action.write, p)]
  | .dir _ cs => (if ign p then [] else [(Action.create, p)]) ++ walkForest ign p cs
/-- Events emitted for the children of the directory at path p. -/
def walkForest (ign : String → Bool) (p : String) : FsForest → List (Action × String)
  | .nil => []
  | .cons t ts => walkTree ign (p ++ "/" ++ t.name) t ++ walkForest ign p ts
end

/-! ## File-list endpoint directory read

Embedding of fileApiHandler.readDir
(src/server/handler/file_api_handler.go, lines 99-151). For every entry,
a hash is attempted exactly when the entry is not a directory, a hash or
a checkpoint list was requested, the cumulative size of the entries
already counted is below 500 GiB and the entry size is below 15 GiB;
when the attempt happens the entry size is added to the cumulative
counter whether or not the open succeeded. Hash errors inside the
attempt are swallowed, leaving the empty hash. -/

/-- Per-file hash cap: 15 GiB (maxCalcSizeSingle). -/
def maxCalcSizeSingle : Int := 1024 * 1024 * 1024 * 15

/-- Cumulative hash budget: 500 GiB (maxCalcSizeSum). -/
def maxCalcSizeSum : Int := 1024 * 1024 * 1024 * 500

/-- A directory entry as the handler sees it, with the outcomes of its
collaborators: whether h.root.Open of the entry succeeds, the full-file
hash and the checkpoint hash list that the hasher would return. -/
structure SrvDirEntry where
  name : String
  isDir : Bool
  size : Int
  openOk : Bool
  fullHash : String
  checkpoints : List String
  deriving DecidableEq, Repr

/-- The fields of the returned contract.FileInfo that the hashing logic
determines. -/
structure SrvFileInfo where
  path : String
  isDir : Bool
  size : Int
  hash : String
  hashValues : List String
  deriving DecidableEq, Repr

/-- The guard of the hashing block of readDir. -/
def hashCond (needHash needCheckpoint : Bool) (sum : Int) (e : SrvDirEntry) : Bool :=
  !e.isDir && (needHash || needCheckpoint) && decide (sum < maxCalcSizeSum)
    && decide (e.size < maxCalcSizeSingle)

/-- Body of the hashing block once the guard holds: on a successful
open, the checkpoint list when requested, and the hash when requested
(the last checkpoint hash if any, the full-file hash otherwise); a
failed open leaves both empty. -/
def entryHash (needHash needCheckpoint : Bool) (e : SrvDirEntry) : String × List String :=
  if e.openOk then
    let hvs := if needCheckpoint then e.checkpoints else []
    let h :=
      if needHash then
        match hvs.getLast? with
        | some x => x
        | none => e.fullHash
      else ""
    (h, hvs)
  else ("", [])

/-- The loop of readDir over the entries with the cumulative counter. -/
def readDirGo (needHash needCheckpoint : Bool) (sum : Int) :
    List SrvDirEntry → List SrvFileInfo
  | [] => []
  | e :: rest =>
    let hp :=
      if hashCond needHash needCheckpoint sum e then entryHash needHash needCheckpoint e
      else ("", [])
    let sum2 := if hashCond needHash needCheckpoint sum e then sum + e.size else sum
    { path := e.name, isDir := e.isDir, size := e.size, hash := hp.1, hashValues := hp.2 }
      :: readDirGo needHash needCheckpoint sum2 rest

/-! ## Concrete instances used by counterexamples and witnesses -/

/-- Processor environment with no ignore matches for C1. -/
def env1 : ProcEnv := { ignoreMatch := fun _ => false, encodeQuery := fun _ => "dir=true" }

/-- A well-formed Create message for C1. -/
def msg1 : SyncMessage :=
  { code := 0, message := "", action := Action.create, path := "a.txt", isDir := 0, size := 1,
    hash := "", cTime := 0, aTime := 0, mTime := 0, linkTo := "", baseUrl := "http://h/" }

/-- A monitor state after Close() with one queued Create message. -/
def s1 : MonitorState :=
  { closed := true, queue := [some (MsgData.ok msg1)], effects := [] }

/-- Processor environment with no ignore matches for C3. -/
def env3 : ProcEnv := { ignoreMatch := fun _ => false, encodeQuery := fun _ => "dir=false" }

/-- A well-formed Symlink message for C3. -/
def msg3 : SyncMessage :=
  { code := 0, message := "", action := Action.symlink, path := "ln.txt", isDir := 0, size := 0,
    hash := "", cTime := 0, aTime := 0, mTime := 0, linkTo := "target.txt",
    baseUrl := "http://h/" }

/-- Processor environment for C10. -/
def env10 : ProcEnv := { ignoreMatch := fun _ => false, encodeQuery := fun _ => "" }

/-- A monitor state whose only queued element has an unparseable
payload, for C10. -/
def s10 : MonitorState :=
  { closed := false, queue := [some MsgData.malformed], effects := [] }

/-- An Auth status frame for C6. -/
def authStatus : Status := { apiType := ApiType.auth, code := 0, message := "" }

/-- A receive state whose authChan buffer is full, for C6. -/
def fullAuthState : RecvState :=
  { authChan := List.replicate 100 authStatus, infoChan := [], messages := [] }

/-- Push environment for C2: local sync enabled, all collaborators
succeed. -/
def envP : PushEnv :=
  { localSyncDisabled := false, diskCreate := fun _ => none, diskWrite := fun _ => none,
    diskRemove := fun _ => none, isDir := fun _ => Except.ok false,
    sendRes := fun _ _ => none, syncOnceRes := fun _ => none }

/-- Auth environment for C7: first POST yields 401 with a configured
user, SignIn yields one cookie, and the retried POST yields 404. -/
def env7 : AuthEnv :=
  { rawURL := "http://u/push", hasUser := true, parseUrlRes := Except.ok (),
    firstPost := Except.ok { statusCode := 401, body := "" },
    signInRes := Except.ok ["cookie"],
    retryPost := Except.ok { statusCode := 404, body := "" } }

/-- Send environment for C8: a five-byte regular file whose MD5 digest
the hasher reports as h5. -/
def env8 : SendEnv :=
  { isDir := fun _ => Except.ok false, openFile := fun _ => none,
    statSize := fun _ => Except.ok 5, md5FromFile := fun _ => Except.ok "h5",
    fileTime := fun _ => Except.ok (1, 2, 3), relPath := fun _ => Except.ok "r", nowUnix := 9 }

/-- The PushData that send builds in env8 for a Write on path f. -/
def pd8 : PushData :=
  { action := Action.write,
    fileInfo :=
      { path := "r", isDir := DirValue.notDirV, size := 5, hash := "h5", cTime := 1, aTime := 2,
        mTime := 3 } }

/-- Ignore policy for C5 that matches exactly the directory path. -/
def ign5 : String → Bool := fun p => p == "/root/ig"

/-- The children of the ignored directory for C5. -/
def forest5 : FsForest := FsForest.cons (FsTree.file "f") FsForest.nil

/-- A tree whose subdirectory ig is matched by ign5 while its child file
is not, for C5. -/
def tree5 : FsTree :=
  FsTree.dir "root" (FsForest.cons (FsTree.dir "ig" forest5) FsForest.nil)

/-- A directory entry whose size is exactly the per-file hash cap, for
C9. -/
def e9 : SrvDirEntry :=
  { name := "big", isDir := false, size := maxCalcSizeSingle, openOk := true, fullHash := "hh",
    checkpoints := [] }

/-! ## Theorems -/

/-- C1 counterexample: a monitor state with the closed flag already set
by Close() and one well-formed Create message still queued; one
processor iteration nevertheless invokes syncer.Create. The claim that
no filesystem effect is applied after Close() is false: the
processingMessage loop never reads the closed flag. -/
theorem C1_counterexample :
    s1.closed = true ∧
    Effect.create (buildUrl env1 msg1) ∈ (processStep env1 s1).effects ∧
    (processStep env1 s1).effects.any Effect.isSyncerCall = true := by
  refine ⟨rfl, ?_, ?_⟩ <;> decide

/-- C1 amended: the message processor is entirely independent of the
closed flag set by Close(): one iteration from a state with the flag set
removes the same element and applies exactly the same syncer effects as
from the same state without it. Only the receive loop consults the
flag. -/
theorem C1_amended_processor_independent_of_closed (env : ProcEnv) (s : MonitorState) :
    processStep env { s with closed := true } = { processStep env s with closed := true } := by
  cases h : s.queue with
  | nil => simp [processStep, h]
  | cons hd tl => cases hd <;> simp [processStep, h]

/-- C3 counterexample: a well-formed, non-ignored Symlink message with
Code Success is processed without any syncer.Symlink call, because the
action switch of processingMessage has no Symlink case. -/
theorem C3_counterexample :
    msg3.action = Action.symlink ∧ msg3.code = success ∧
    env3.ignoreMatch msg3.path = false ∧
    hasSymlinkCall (processBody env3 (MsgData.ok msg3)) = false := by
  refine ⟨rfl, rfl, rfl, ?_⟩ ; decide

/-- C3 amended: a dequeued Symlink message that is not ignored and has
Code Success is not dispatched to the local syncer at all: the only
effect of handling it is the event log entry for the built url, after
which the element is removed. -/
theorem C3_amended_symlink_not_dispatched (env : ProcEnv) (msg : SyncMessage)
    (h1 : msg.action = Action.symlink) (h2 : msg.code = success)
    (h3 : env.ignoreMatch msg.path = false) :
    processBody env (MsgData.ok msg) = [Effect.eventLog (buildUrl env msg) Action.symlink] := by
  simp [processBody, h1, h2, h3, dispatchAction]

/-- C3 witness: the amended statement evaluated on the concrete Symlink
message msg3. -/
theorem C3_witness :
    processBody env3 (MsgData.ok msg3) = [Effect.eventLog (buildUrl env3 msg3) Action.symlink] :=
  C3_amended_symlink_not_dispatched env3 msg3 rfl rfl rfl

/-- C10: on every iteration that observes a non-nil front element whose
value is non-nil, that element is removed from the queue before the next
iteration, whatever its contents: an unparseable payload, a non-Success
code, an ignored path and a failing syncer call all fall through to the
final Remove. -/
theorem C10_queue_progress (env : ProcEnv) (s : MonitorState) (d : MsgData)
    (rest : List (Option MsgData)) (h : s.queue = some d :: rest) :
    (processStep env s).queue = rest := by
  simp [processStep, h]

/-- C10 witness: the progress property evaluated on a queue whose only
element carries an unparseable payload. -/
theorem C10_queue_progress_witness : (processStep env10 s10).queue = [] :=
  C10_queue_progress env10 s10 MsgData.malformed [] rfl

/-- C6 counterexample: an Auth frame arriving while the authChan buffer
already holds 100 statuses blocks the receive loop; the status is not
dropped and the state does not advance, contradicting the claimed
non-blocking drop-if-full enqueue. -/
theorem C6_counterexample :
    fullAuthState.authChan.length = chanCap ∧
    dispatchFrame authStatus { data := "" } fullAuthState = DispatchResult.blockedOnAuth ∧
    dispatchFrame authStatus { data := "" } fullAuthState ≠ DispatchResult.ok fullAuthState := by
  refine ⟨rfl, rfl, ?_⟩ ; decide

/-- C6 amended: the enqueue of an Auth status is a plain buffered
channel send on a buffer of capacity 100: it succeeds immediately while
fewer than 100 statuses are pending and blocks the receive loop when the
buffer is full; no status is ever dropped. -/
theorem C6_amended_auth_send_blocks (st : Status) (raw : RawMessage) (s : RecvState)
    (h : st.apiType = ApiType.auth) :
    (s.authChan.length < chanCap →
      dispatchFrame st raw s = DispatchResult.ok { s with authChan := s.authChan ++ [st] }) ∧
    (chanCap ≤ s.authChan.length →
      dispatchFrame st raw s = DispatchResult.blockedOnAuth) := by
  constructor
  · intro hlt
    simp [dispatchFrame, h, hlt]
  · intro hge
    have hnot : ¬ s.authChan.length < chanCap := by omega
    simp [dispatchFrame, h, hnot]

/-- C6 witness: the amended statement evaluated on the full buffer. -/
theorem C6_witness :
    dispatchFrame authStatus { data := "" } fullAuthState = DispatchResult.blockedOnAuth :=
  (C6_amended_auth_send_blocks authStatus { data := "" } fullAuthState rfl).2 (by decide)

/-- C2 counterexample: with the local mirror enabled and every
collaborator succeeding, Rename applies diskSync.Remove to the local
destination and never diskSync.Rename, so the claimed same-named mapping
fails for Rename. -/
theorem C2_counterexample :
    envP.localSyncDisabled = false ∧
    (pcsRename envP "a").2 = [PushEffect.diskRemove "a", PushEffect.sendAct Action.rename "a"] ∧
    PushEffect.diskRename "a" ∉ (pcsRename envP "a").2 := by
  refine ⟨rfl, rfl, ?_⟩ ; decide

/-- C2 amended: when dest.LocalSyncDisabled() is false, Create, Write
and Remove apply the same-named DiskSync operation and Rename applies
DiskSync Remove, in every case before the push; a disk error aborts the
operation with that error and no push is attempted, and on disk success
the push follows. -/
theorem C2_amended_local_mirror (env : PushEnv) (p : String)
    (h : env.localSyncDisabled = false) :
    (∀ e, env.diskCreate p = some e → pcsCreate env p = (some e, [PushEffect.diskCreate p])) ∧
    (env.diskCreate p = none → pcsCreate env p =
      (env.sendRes Action.create p,
        [PushEffect.diskCreate p, PushEffect.sendAct Action.create p])) ∧
    (∀ e, env.diskWrite p = some e → pcsWrite env p = (some e, [PushEffect.diskWrite p])) ∧
    (env.diskWrite p = none → pcsWrite env p = pcsWriteTail env p [PushEffect.diskWrite p]) ∧
    (∀ e, env.diskRemove p = some e → pcsRemove env p = (some e, [PushEffect.diskRemove p])) ∧
    (env.diskRemove p = none → pcsRemove env p =
      (env.sendRes Action.remove p,
        [PushEffect.diskRemove p, PushEffect.sendAct Action.remove p])) ∧
    (∀ e, env.diskRemove p = some e → pcsRename env p = (some e, [PushEffect.diskRemove p])) ∧
    (env.diskRemove p = none → pcsRename env p =
      (env.sendRes Action.rename p,
        [PushEffect.diskRemove p, PushEffect.sendAct Action.rename p])) := by
  refine ⟨?_, ?_, ?_, ?_, ?_, ?_, ?_, ?_⟩
  · intro e he; simp [pcsCreate, h, he]
  · intro he; simp [pcsCreate, h, he]
  · intro e he; simp [pcsWrite, h, he]
  · intro he; simp [pcsWrite, h, he]
  · intro e he; simp [pcsRemove, h, he]
  · intro he; simp [pcsRemove, h, he]
  · intro e he; simp [pcsRename, h, he]
  · intro he; simp [pcsRename, h, he]

/-- C2 witness: the amended Rename clause evaluated with the local
mirror enabled and a succeeding diskSync.Remove. -/
theorem C2_witness :
    pcsRename envP "a" =
      (envP.sendRes Action.rename "a",
        [PushEffect.diskRemove "a", PushEffect.sendAct Action.rename "a"]) :=
  (C2_amended_local_mirror envP "a" rfl).2.2.2.2.2.2.2 rfl

/-- C4 counterexample: when no Info response arrives within the timeout
the handshake returns the timeout error but start does not invoke
client.Close(): the source closes the client only when info returns no
error. -/
theorem C4_counterexample :
    (startInfoPhase none).result = Except.error "info timeout for 3m0s" ∧
    (startInfoPhase none).closeCalled = false := ⟨rfl, rfl⟩

/-- C4 amended: on an Info timeout the handshake returns the timeout
error and leaves the control transport open; start invokes
client.Close() exactly when the info phase succeeds. -/
theorem C4_amended_close_only_on_success :
    (startInfoPhase none).result = Except.error "info timeout for 3m0s" ∧
    (startInfoPhase none).closeCalled = false ∧
    ∀ recv : Option InfoMsg,
      ((startInfoPhase recv).closeCalled = true ↔ ∃ a, infoResult recv = Except.ok a) := by
  refine ⟨rfl, rfl, fun recv => ?_⟩
  cases h : infoResult recv <;> simp [startInfoPhase, h]

/-- C7 counterexample: first POST 401 with a configured user, SignIn
returning one cookie, and the retried POST answering 404: the 404
response is returned as a success value and no unsupported-server error
is raised, so "any POST returns 404 gives the error" fails for the
retried POST. -/
theorem C7_counterexample :
    env7.retryPost = Except.ok { statusCode := 404, body := "" } ∧
    (httpPostWithAuth env7).result = Except.ok { statusCode := 404, body := "" } ∧
    (httpPostWithAuth env7).postCalls = 2 := ⟨rfl, rfl, rfl⟩

/-- C7 amended: on a first-POST 401 with a configured user, SignIn runs
exactly once; with a non-empty cookie list the cookies are replaced and
the POST is retried exactly once, the retried response being returned
with no status inspection at all; with an empty cookie list the
unauthorized error is returned. The unsupported-server error arises
exactly when the FIRST POST answers 404 (a 404 on the retried POST is
passed through). -/
theorem C7_amended_auto_login (env : AuthEnv) (resp : HttpResp) (cookies : List String)
    (hfp : env.firstPost = Except.ok resp) :
    (resp.statusCode = 401 → env.hasUser = true → env.parseUrlRes = Except.ok () →
      env.signInRes = Except.ok cookies → 0 < cookies.length →
      httpPostWithAuth env =
        { result := env.retryPost, signInCalls := 1, postCalls := 2,
          cookiesReplaced := true }) ∧
    (resp.statusCode = 401 → env.hasUser = true → env.parseUrlRes = Except.ok () →
      env.signInRes = Except.ok [] →
      httpPostWithAuth env =
        { result := Except.error "file server is unauthorized", signInCalls := 1,
          postCalls := 1, cookiesReplaced := false }) ∧
    (resp.statusCode = 404 →
      httpPostWithAuth env =
        { result := Except.error ("the push server is unsupported => " ++ env.rawURL),
          signInCalls := 0, postCalls := 1, cookiesReplaced := false }) := by
  refine ⟨?_, ?_, ?_⟩
  · intro h401 husr hparse hsign hlen
    simp [httpPostWithAuth, hfp, h401, husr, hparse, hsign, hlen]
  · intro h401 husr hparse hsign
    simp [httpPostWithAuth, hfp, h401, husr, hparse, hsign]
  · intro h404
    simp [httpPostWithAuth, hfp, h404]

/-- C7 witness: the amended retry clause evaluated on env7, where the
retried response is a 404 that is returned unchanged. -/
theorem C7_witness :
    httpPostWithAuth env7 =
      { result := env7.retryPost, signInCalls := 1, postCalls := 2, cookiesReplaced := true } :=
  (C7_amended_auto_login env7 { statusCode := 401, body := "" } ["cookie"] rfl).1 rfl rfl rfl
    rfl (by decide)

/-- C8: for a Write on a non-directory path the pushed FileInfo.Hash is
the MD5 digest the hasher computed from the file body at send time when
the size is positive, and the empty string when the size is zero or
negative; a Write on a directory returns before any POST; a pushed
Create always carries the empty hash; and for Remove and Rename the path
is never stat-checked. -/
theorem C8_send_hash (env : SendEnv) (p : String) :
    (∀ pd b, send env Action.write p = (SendResult.pushed pd, b) →
      (0 < pd.fileInfo.size → env.md5FromFile p = Except.ok pd.fileInfo.hash) ∧
      (pd.fileInfo.size ≤ 0 → pd.fileInfo.hash = "")) ∧
    (env.isDir p = Except.ok true →
      send env Action.write p = (SendResult.dirWriteSkip, true)) ∧
    (∀ pd b, send env Action.create p = (SendResult.pushed pd, b) → pd.fileInfo.hash = "") ∧
    (send env Action.remove p).2 = false ∧ (send env Action.rename p).2 = false := by
  refine ⟨?_, ?_, ?_, rfl, rfl⟩
  · intro pd b hpd
    cases hd : env.isDir p with
    | error e => simp [send, hd] at hpd
    | ok isd =>
      cases isd with
      | true => simp [send, hd, sendBody] at hpd
      | false =>
        simp only [send, hd] at hpd
        rw [if_pos (by decide)] at hpd
        simp only [sendBody] at hpd
        rw [if_pos (by decide)] at hpd
        cases ho : env.openFile p with
        | some e => simp [ho] at hpd
        | none =>
          simp only [ho] at hpd
          cases hs : env.statSize p with
          | error e => simp [hs] at hpd
          | ok size =>
            simp only [hs] at hpd
            by_cases hsz : size > 0
            · rw [if_pos hsz] at hpd
              cases hm : env.md5FromFile p with
              | error e => simp [hm] at hpd
              | ok hsh =>
                simp only [hm, sendTail] at hpd
                rw [if_pos (Or.inl trivial)] at hpd
                cases ht : env.fileTime p with
                | error e => simp [ht] at hpd
                | ok t =>
                  obtain ⟨c, a, m⟩ := t
                  simp only [ht] at hpd
                  cases hr : env.relPath p with
                  | error e => simp [hr] at hpd
                  | ok rel =>
                    simp only [hr, Prod.mk.injEq, SendResult.pushed.injEq] at hpd
                    obtain ⟨hpd1, -⟩ := hpd
                    subst hpd1
                    refine ⟨fun _ => rfl, fun hle => ?_⟩
                    have hle2 : size ≤ 0 := hle
                    omega
            · rw [if_neg hsz] at hpd
              simp only [sendTail] at hpd
              rw [if_pos (Or.inl trivial)] at hpd
              cases ht : env.fileTime p with
              | error e => simp [ht] at hpd
              | ok t =>
                obtain ⟨c, a, m⟩ := t
                simp only [ht] at hpd
                cases hr : env.relPath p with
                | error e => simp [hr] at hpd
                | ok rel =>
                  simp only [hr, Prod.mk.injEq, SendResult.pushed.injEq] at hpd
                  obtain ⟨hpd1, -⟩ := hpd
                  subst hpd1
                  exact ⟨fun hgt => absurd hgt hsz, fun _ => rfl⟩
  · intro hd
    simp [send, hd, sendBody]
  · intro pd b hpd
    cases hd : env.isDir p with
    | error e => simp [send, hd] at hpd
    | ok isd =>
      simp only [send, hd] at hpd
      rw [if_pos (by decide)] at hpd
      simp only [sendBody] at hpd
      rw [if_neg (by simp), if_neg (by simp)] at hpd
      simp only [sendTail] at hpd
      rw [if_pos (Or.inr trivial)] at hpd
      cases ht : env.fileTime p with
      | error e => simp [ht] at hpd
      | ok t =>
        obtain ⟨c, a, m⟩ := t
        simp only [ht] at hpd
        cases hr : env.relPath p with
        | error e => simp [hr] at hpd
        | ok rel =>
          simp only [hr, Prod.mk.injEq, SendResult.pushed.injEq] at hpd
          obtain ⟨hpd1, -⟩ := hpd
          subst hpd1
          rfl

/-- C8 witness: the Write clause evaluated on env8, recovering the MD5
digest of the five-byte file from the pushed record. -/
theorem C8_send_hash_witness : env8.md5FromFile "f" = Except.ok pd8.fileInfo.hash :=
  (((C8_send_hash env8 "f").1 pd8 true (by decide)).1 (by decide))

mutual
/-- Helper: every event the walk emits is for a path the ignore policy
does not match, since the callback emits nothing for a matched path. -/
theorem walkTree_not_ignored (ign : String → Bool) (p : String) :
    (t : FsTree) → ∀ a q, (a, q) ∈ walkTree ign p t → ign q = false
  | FsTree.file n => by
    intro a q hq
    by_cases hp : ign p = true
    · simp [walkTree, hp] at hq
    · have hp2 : ign p = false := by
        cases hv : ign p
        · rfl
        · exact absurd hv hp
      simp [walkTree, hp2] at hq
      rcases hq with ⟨ha, hb⟩ | ⟨ha, hb⟩ <;> (subst hb; exact hp2)
  | FsTree.dir n cs => by
    intro a q hq
    by_cases hp : ign p = true
    · simp [walkTree, hp] at hq
      exact walkForest_not_ignored ign p cs a q hq
    · have hp2 : ign p = false := by
        cases hv : ign p
        · rfl
        · exact absurd hv hp
      simp [walkTree, hp2] at hq
      rcases hq with ⟨ha, hb⟩ | hq
      · subst hb; exact hp2
      · exact walkForest_not_ignored ign p cs a q hq
/-- Helper: the same statement for the walk of a child list. -/
theorem walkForest_not_ignored (ign : String → Bool) (p : String) :
    (ts : FsForest) → ∀ a q, (a, q) ∈ walkForest ign p ts → ign q = false
  | FsForest.nil => by
    intro a q hq
    simp [walkForest] at hq
  | FsForest.cons t ts => by
    intro a q hq
    simp only [walkForest, List.mem_append] at hq
    rcases hq with hq | hq
    · exact walkTree_not_ignored ign (p ++ "/" ++ t.name) t a q hq
    · exact walkForest_not_ignored ign p ts a q hq
end

/-- C5 counterexample: a directory matched by the ignore policy whose
child file is not matched; the walk still emits Create and Write for the
child, so the subtree of a matched directory is not skipped (the
callback returns nil, not the value that prunes the walk). -/
theorem C5_counterexample :
    ign5 "/root/ig" = true ∧
    (Action.create, "/root/ig/f") ∈ walkTree ign5 "/root" tree5 ∧
    (Action.write, "/root/ig/f") ∈ walkTree ign5 "/root" tree5 := by
  refine ⟨rfl, ?_, ?_⟩ <;> decide

/-- C5 amended: a matched entry is itself skipped, so no Create or Write
is ever emitted for a path the ignore policy matches; but for a matched
directory the walk continues into the children, whose events are emitted
exactly as if the directory had not matched. -/
theorem C5_amended_ignore_skips_entry_only (ign : String → Bool) (root d n : String)
    (cs : FsForest) (t : FsTree) (h : ign d = true) :
    (∀ a q, (a, q) ∈ walkTree ign root t → ign q = false) ∧
    walkTree ign d (FsTree.dir n cs) = walkForest ign d cs := by
  refine ⟨walkTree_not_ignored ign root t, ?_⟩
  simp [walkTree, h]

/-- C5 witness: the amended statement evaluated on the matched directory
of tree5. -/
theorem C5_witness :
    walkTree ign5 "/root/ig" (FsTree.dir "ig" forest5) = walkForest ign5 "/root/ig" forest5 :=
  (C5_amended_ignore_skips_entry_only ign5 "/x" "/root/ig" "ig" forest5 (FsTree.file "y")
    (by decide)).2

/-- C9: a hash is attempted for an entry only if it is not a directory,
a hash or checkpoint was requested, the entry size is strictly below the
15 GiB per-file cap and the cumulative counter is strictly below the
500 GiB budget; an entry of exactly 15 GiB keeps the empty hash; and
once the cumulative counter has reached the budget every remaining entry
of the directory keeps the empty hash. -/
theorem C9_hash_budget (nh nc : Bool) :
    (∀ sum es o, o ∈ readDirGo nh nc sum es → o.hash ≠ "" →
      o.isDir = false ∧ (nh || nc) = true ∧ o.size < maxCalcSizeSingle) ∧
    (∀ sum (e : SrvDirEntry) rest, e.size = maxCalcSizeSingle →
      readDirGo nh nc sum (e :: rest) =
        { path := e.name, isDir := e.isDir, size := e.size, hash := "", hashValues := [] }
          :: readDirGo nh nc sum rest) ∧
    (∀ sum es, maxCalcSizeSum ≤ sum → ∀ o, o ∈ readDirGo nh nc sum es → o.hash = "") := by
  refine ⟨?_, ?_, ?_⟩
  · intro sum es
    induction es generalizing sum with
    | nil => intro o ho; simp [readDirGo] at ho
    | cons e rest ih =>
      intro o ho hne
      by_cases hc : hashCond nh nc sum e = true
      · simp only [readDirGo, hc, if_true, List.mem_cons] at ho
        rcases ho with rfl | ho
        · have hc2 := hc
          simp only [hashCond, Bool.and_eq_true, decide_eq_true_eq, Bool.not_eq_true'] at hc2
          exact ⟨hc2.1.1.1, hc2.1.1.2, hc2.2⟩
        · exact ih (sum + e.size) o ho hne
      · simp only [readDirGo, hc, if_false, Bool.false_eq_true, List.mem_cons] at ho
        rcases ho with rfl | ho
        · exact absurd rfl hne
        · exact ih sum o ho hne
  · intro sum e rest he
    have hc : hashCond nh nc sum e = false := by
      simp [hashCond, he]
    simp [readDirGo, hc]
  · intro sum es
    induction es generalizing sum with
    | nil => intro hge o ho; simp [readDirGo] at ho
    | cons e rest ih =>
      intro hge o ho
      have hc : hashCond nh nc sum e = false := by
        have hlt : ¬ (sum < maxCalcSizeSum) := by omega
        simp [hashCond, hlt]
      simp only [readDirGo, hc, if_false, Bool.false_eq_true, List.mem_cons] at ho
      rcases ho with rfl | ho
      · rfl
      · exact ih sum hge o ho

/-- C9 witness: the exact-cap clause evaluated on a single entry whose
size is exactly 15 GiB. -/
theorem C9_hash_budget_witness :
    readDirGo true true 0 [e9] =
      [{ path := "big", isDir := false, size := maxCalcSizeSingle, hash := "",
         hashValues := [] }] :=
  (C9_hash_budget true true).2.1 0 e9 [] rfl

end Gofs
